import Mathlib

/-!
Verification of the SPEAD heap decoder and visibility-data reassembler of
ska-low-csp-testware, as a shallow embedding in Lean 4.

The embedded code comes from two source modules:
  * ska_low_csp_testware/spead.py         -- synchronous visitor-based reader
  * ska_low_csp_testware/low_cbf_vis.py   -- visibility accumulation
Machine complex values (numpy complex64) are modelled with exact rational
components; numpy array operations are modelled by their documented semantics
on rectangular nested lists.
-/

namespace SkaSpead

/-- Complex value with exact rational components, modelling a numpy complex
number appearing in a visibility matrix. -/
structure Cplx where
  re : ℚ
  im : ℚ
deriving DecidableEq, Repr

/-- Elementwise building block of numpy average over two stacked values:
the arithmetic mean of two complex numbers. -/
def cmean (a b : Cplx) : Cplx :=
  ⟨(a.re + b.re) / 2, (a.im + b.im) / 2⟩

/-- A visibility matrix: a 2-D array of complex values, as a list of rows. -/
abbrev Matrix := List (List Cplx)

/-- Whether a nested list is rectangular, i.e. all rows have the length of
the first row.  numpy arrays are rectangular by construction. -/
def matRect (m : Matrix) : Bool :=
  match m with
  | [] => true
  | r0 :: rs => rs.all (fun r => r.length = r0.length)

/-- The (rows, columns) shape of a rectangular matrix. -/
def matShape (m : Matrix) : Nat × Nat :=
  match m with
  | [] => (0, 0)
  | r0 :: rs => (rs.length + 1, r0.length)

/-- Elementwise mean of two matrices (the value of
numpy average(array([a, b]), axis=0) when the shapes agree). -/
def mat_mean (a b : Matrix) : Matrix :=
  List.zipWith (List.zipWith cmean) a b

/-- Model of numpy average(array([a, b]), axis=0) from low_cbf_vis.py line
110-113: stacking succeeds only for two rectangular arrays of equal shape,
in which case the result is the elementwise mean; otherwise numpy raises
ValueError (inhomogeneous shape). -/
def np_pair_average (a b : Matrix) : Option Matrix :=
  if matRect a = true ∧ matRect b = true ∧ matShape a = matShape b then
    some (mat_mean a b)
  else
    none

/-! ## Channel-ID decoder (low_cbf_vis.py line 108) -/

/-- Python cnt.to_bytes(6, byteorder="big"): the six bytes of a 48-bit
counter, most significant first. -/
def toBytesBE6 (n : Nat) : List Nat :=
  [n / 2 ^ 40 % 256, n / 2 ^ 32 % 256, n / 2 ^ 24 % 256,
   n / 2 ^ 16 % 256, n / 2 ^ 8 % 256, n % 256]

/-- Python int.from_bytes(bs, "big"). -/
def fromBytesBE (bs : List Nat) : Nat :=
  bs.foldl (fun acc b => acc * 256 + b) 0

/-- The channel id extracted from a heap counter, translated from
low_cbf_vis.py line 108: encode the counter as 6 bytes big-endian, slice
bytes 2 and 3, and read them back as a big-endian 16-bit integer. -/
def channel_id_of_cnt (cnt : Nat) : Nat :=
  fromBytesBE (((toBytesBE6 cnt).drop 2).take 2)

lemma channel_id_eq_shift (cnt : Nat) :
    channel_id_of_cnt cnt = (cnt >>> 16) % 2 ^ 16 := by
  simp only [channel_id_of_cnt, toBytesBE6, fromBytesBE, List.drop, List.take,
    List.foldl, Nat.shiftRight_eq_div_pow]
  omega

lemma channel_id_depends_on_bits {a b : Nat}
    (h : ∀ j, 16 ≤ j → j < 32 → a.testBit j = b.testBit j) :
    channel_id_of_cnt a = channel_id_of_cnt b := by
  rw [channel_id_eq_shift, channel_id_eq_shift]
  apply Nat.eq_of_testBit_eq
  intro j
  rcases lt_or_ge j 16 with hj | hj
  · rw [Nat.testBit_mod_two_pow, Nat.testBit_mod_two_pow,
      Nat.testBit_shiftRight, Nat.testBit_shiftRight]
    simp only [hj, decide_true_eq_true]
    rw [h (16 + j) (Nat.le_add_right 16 j) (by omega)]
  · rw [Nat.testBit_mod_two_pow, Nat.testBit_mod_two_pow]
    have : ¬ (j < 16) := by omega
    simp [this]

/-- Claim C2: for every 48-bit unsigned counter, the decoded channel id is
the big-endian 16-bit integer formed by bytes 2 and 3 of the 6-byte
big-endian encoding, equal to (counter >>> 16) mod 2 ^ 16, and the decode
depends only on bits 16 to 31: flipping any bit outside that range leaves
the result unchanged. -/
theorem channel_id_decode_correct (cnt : Nat) (_h48 : cnt < 2 ^ 48) :
    channel_id_of_cnt cnt = (cnt >>> 16) % 2 ^ 16 ∧
    (∀ i : Nat, i < 48 → (i < 16 ∨ 32 ≤ i) →
      channel_id_of_cnt (cnt ^^^ 2 ^ i) = channel_id_of_cnt cnt) := by
  refine ⟨channel_id_eq_shift cnt, ?_⟩
  intro i _ hrange
  apply channel_id_depends_on_bits
  intro j h16 h32
  rw [Nat.testBit_xor]
  have hne : i ≠ j := by omega
  rw [Nat.testBit_two_pow_of_ne hne]
  cases cnt.testBit j <;> rfl

/-- Witness for claim C2 at the concrete counter 2 ^ 32 + 3 * 2 ^ 16 + 7. -/
theorem channel_id_decode_correct_witness :
    (2 ^ 32 + 3 * 2 ^ 16 + 7 : Nat) < 2 ^ 48 ∧
    (channel_id_of_cnt (2 ^ 32 + 3 * 2 ^ 16 + 7) =
        ((2 ^ 32 + 3 * 2 ^ 16 + 7 : Nat) >>> 16) % 2 ^ 16 ∧
      (∀ i : Nat, i < 48 → (i < 16 ∨ 32 ≤ i) →
        channel_id_of_cnt ((2 ^ 32 + 3 * 2 ^ 16 + 7) ^^^ 2 ^ i) =
          channel_id_of_cnt (2 ^ 32 + 3 * 2 ^ 16 + 7))) :=
  ⟨by norm_num, channel_id_decode_correct _ (by norm_num)⟩

/-! ## Heaps and items

The SPEAD transport library (spead2) classifies a heap as start-of-stream,
end-of-stream, or a data heap; the roles are mutually exclusive (a single
stream-control item value).  The code consumes the library predicates
is_start_of_stream and is_end_of_stream. -/

/-- The role of a SPEAD heap. -/
inductive HeapRole where
  | start_of_stream : HeapRole
  | data_heap : HeapRole
  | end_of_stream : HeapRole
deriving DecidableEq, Repr

/-- The value of a SPEAD item: an integer, a string, or a structured array
with named matrix-valued fields (the Correlator output payload). -/
inductive ItemValue where
  | intV : Int → ItemValue
  | strV : String → ItemValue
  | structuredV : List (String × Matrix) → ItemValue
deriving DecidableEq, Repr

/-- A SPEAD item as surfaced by the transport library. -/
structure SpeadItem where
  value : ItemValue
deriving DecidableEq, Repr

/-- The item mapping returned by ItemGroup.update for one heap: item name
to item, with names unique within a heap. -/
abbrev Items := List (String × SpeadItem)

/-- A SPEAD heap as surfaced by the transport library: a 48-bit counter
and a role. -/
structure SpeadHeap where
  cnt : Nat
  role : HeapRole
deriving DecidableEq, Repr

/-- Transport-library predicate heap.is_start_of_stream(). -/
def SpeadHeap.is_start_of_stream (h : SpeadHeap) : Bool :=
  decide (h.role = HeapRole.start_of_stream)

/-- Transport-library predicate heap.is_end_of_stream(). -/
def SpeadHeap.is_end_of_stream (h : SpeadHeap) : Bool :=
  decide (h.role = HeapRole.end_of_stream)

/-- Python item.value for the field access value of the VIS sub-field,
low_cbf_vis.py line 109: defined only for a structured value that has a
VIS field. -/
def SpeadItem.vis_value (it : SpeadItem) : Option Matrix :=
  match it.value with
  | ItemValue.structuredV fields => fields.lookup "VIS"
  | _ => none

/-! ## The visibility reader state (low_cbf_vis.py, function
_read_visibilities) -/

/-- Errors that can abort _read_visibilities.  The constructor
numpy_inhomogeneous_error models the ValueError numpy raises from
np.array on input of mismatched shapes: it carries neither a channel id
nor the two shapes.  The constructor spec_shape_mismatch is modelled from
the spec's error taxonomy (a ShapeMismatch surfaced with the channel id
and both shapes); the code never constructs it, it exists only to state
the spec's claim for comparison. -/
inductive VisError where
  | numpy_inhomogeneous_error : VisError
  | spec_shape_mismatch : Nat → Nat × Nat → Nat × Nat → VisError
  | missing_vis_key : VisError
deriving DecidableEq, Repr

/-- The per-channel accumulator: a Python dict from channel id to matrix,
modelled as an association list in insertion order (Python dicts preserve
insertion order; assignment to an existing key keeps its position). -/
abbrev Accum := List (Nat × Matrix)

/-- Assignment to an existing key of a Python dict: replace the value,
keep the position. -/
def updateAssoc (acc : Accum) (ch : Nat) (w : Matrix) : Accum :=
  acc.map (fun p => if p.1 = ch then (p.1, w) else p)

/-- The accumulation step of low_cbf_vis.py lines 110-117: if the channel
is already present, replace its value by the pairwise numpy average of the
stored value and the new matrix (raising numpy's ValueError when the
shapes disagree); otherwise store the new matrix verbatim at the end of
the dict. -/
def accumulate_vis (acc : Accum) (ch : Nat) (data : Matrix) :
    Except VisError Accum :=
  match acc.lookup ch with
  | some v =>
    match np_pair_average v data with
    | some avg => Except.ok (updateAssoc acc ch avg)
    | none => Except.error VisError.numpy_inhomogeneous_error
  | none => Except.ok (acc ++ [(ch, data)])

/-- Accumulating a sequence of matrices for one channel, in order. -/
def accumulate_seq (acc : Accum) (ch : Nat) (ms : List Matrix) :
    Except VisError Accum :=
  ms.foldlM (fun a m => accumulate_vis a ch m) acc

/-- The mutable state of _read_visibilities: the headers list and the
per-channel averaged data dict. -/
structure VisState where
  headers : List (List (String × ItemValue))
  averaged_data : Accum
deriving DecidableEq, Repr

/-- The header row built from a heap's items, low_cbf_vis.py lines
98-101: each item name mapped to its value as-is. -/
def row_of_items (items : Items) : List (String × ItemValue) :=
  items.map (fun p => (p.1, p.2.value))

/-- One iteration of the loop of _read_visibilities (low_cbf_vis.py lines
97-117) on a heap and its items. -/
def vis_step (st : VisState) (hi : SpeadHeap × Items) :
    Except VisError VisState :=
  if hi.1.is_start_of_stream then
    Except.ok { st with headers := st.headers ++ [row_of_items hi.2] }
  else if hi.1.is_end_of_stream then
    Except.ok st
  else
    let ch := channel_id_of_cnt hi.1.cnt
    match hi.2.lookup "Corre" with
    | none => Except.ok st
    | some item =>
      match item.vis_value with
      | none => Except.error VisError.missing_vis_key
      | some data =>
        match accumulate_vis st.averaged_data ch data with
        | Except.ok acc => Except.ok { st with averaged_data := acc }
        | Except.error e => Except.error e

/-- The full scan of _read_visibilities over the decoded heap stream. -/
def read_visibilities_state (stream : List (SpeadHeap × Items)) :
    Except VisError VisState :=
  stream.foldlM vis_step { headers := [], averaged_data := [] }

/-! ## Association list lemmas (Python dict semantics) -/

lemma lookup_append_of_none (ch : Nat) :
    ∀ (acc l : Accum), acc.lookup ch = none →
      (acc ++ l).lookup ch = l.lookup ch := by
  intro acc
  induction acc with
  | nil => intro l _; rfl
  | cons p t ih =>
    intro l h
    obtain ⟨k, v⟩ := p
    simp only [List.lookup_cons, List.cons_append] at h ⊢
    cases hk : (ch == k) with
    | true => simp [hk] at h
    | false => simp only [hk] at h ⊢; exact ih l h

lemma lookup_none_not_mem (ch : Nat) :
    ∀ (acc : Accum), acc.lookup ch = none → ch ∉ acc.map Prod.fst := by
  intro acc
  induction acc with
  | nil => intro _ h; simp at h
  | cons p t ih =>
    intro h
    obtain ⟨k, v⟩ := p
    simp only [List.lookup_cons] at h
    cases hk : (ch == k) with
    | true => rw [hk] at h; exact absurd h (by simp)
    | false =>
      rw [hk] at h
      have hne : ch ≠ k := by simpa using hk
      simpa [hne] using ih h

lemma lookup_some_mem (ch : Nat) :
    ∀ (acc : Accum) (v : Matrix), acc.lookup ch = some v →
      ch ∈ acc.map Prod.fst := by
  intro acc
  induction acc with
  | nil => intro v h; simp [List.lookup] at h
  | cons p t ih =>
    intro v h
    obtain ⟨k, w⟩ := p
    simp only [List.lookup_cons] at h
    cases hk : (ch == k) with
    | true =>
      have : ch = k := by simpa using hk
      simp [this]
    | false =>
      rw [hk] at h
      simpa using Or.inr (ih v h)

lemma updateAssoc_keys (acc : Accum) (ch : Nat) (w : Matrix) :
    (updateAssoc acc ch w).map Prod.fst = acc.map Prod.fst := by
  simp only [updateAssoc, List.map_map]
  apply List.map_congr_left
  intro p _
  by_cases h : p.1 = ch <;> simp [h]

lemma lookup_updateAssoc_self (ch : Nat) (w : Matrix) :
    ∀ (acc : Accum) (v : Matrix), acc.lookup ch = some v →
      (updateAssoc acc ch w).lookup ch = some w := by
  intro acc
  induction acc with
  | nil => intro v h; simp [List.lookup] at h
  | cons p t ih =>
    intro v h
    obtain ⟨k, u⟩ := p
    simp only [List.lookup_cons] at h
    by_cases hk : k = ch
    · subst hk
      simp [updateAssoc, List.lookup_cons]
    · have hck : (ch == k) = false := by
        simp only [beq_eq_false_iff_ne, ne_eq]
        intro hc; exact hk hc.symm
      rw [hck] at h
      have := ih v h
      simpa [updateAssoc, List.lookup_cons, hk, hck] using this

/-! ## Shape preservation of the pairwise mean -/

lemma all_length_zipWith (c : Nat) :
    ∀ (as bs : List (List Cplx)),
      (as.all fun r => r.length = c) = true →
      (bs.all fun r => r.length = c) = true →
      ((List.zipWith (List.zipWith cmean) as bs).all fun r => r.length = c)
        = true := by
  intro as
  induction as with
  | nil => intro bs _ _; simp
  | cons a t ih =>
    intro bs ha hb
    cases bs with
    | nil => simp
    | cons b bt =>
      simp only [List.zipWith_cons_cons, List.all_cons, Bool.and_eq_true,
        decide_eq_true_eq] at ha hb ⊢
      exact ⟨by rw [List.length_zipWith, ha.1, hb.1, min_self],
        ih bt ha.2 hb.2⟩

lemma mat_mean_shape {a b : Matrix} (ha : matRect a = true)
    (hb : matRect b = true) (hs : matShape a = matShape b) :
    matRect (mat_mean a b) = true ∧ matShape (mat_mean a b) = matShape a := by
  cases a with
  | nil =>
    cases b with
    | nil => exact ⟨rfl, rfl⟩
    | cons b0 bt =>
      have h0 := congrArg Prod.fst hs
      simp [matShape] at h0
  | cons a0 at' =>
    cases b with
    | nil =>
      have h0 := congrArg Prod.fst hs
      simp [matShape] at h0
    | cons b0 bt =>
      have hlen : at'.length = bt.length ∧ a0.length = b0.length := by
        simpa [matShape, Prod.ext_iff] using hs
      simp only [mat_mean, List.zipWith_cons_cons]
      constructor
      · simp only [matRect]
        have ha' : (at'.all fun r => r.length = a0.length) = true := by
          simpa [matRect] using ha
        have hb' : (bt.all fun r => r.length = a0.length) = true := by
          have := hb
          simp only [matRect] at this
          rw [← hlen.2] at this
          exact this
        have hall := all_length_zipWith a0.length at' bt ha' hb'
        have hhead : (List.zipWith cmean a0 b0).length = a0.length := by
          rw [List.length_zipWith, hlen.2, min_self]
        rw [List.all_eq_true] at hall ⊢
        intro r hr
        have := hall r hr
        simpa [hhead] using this
      · simp only [matShape]
        rw [List.length_zipWith, List.length_zipWith, hlen.1, hlen.2,
          min_self, min_self]

/-! ## The true-mean comparison (modelled from the spec) -/

/-- Elementwise sum of two matrices. -/
def mat_add (a b : Matrix) : Matrix :=
  List.zipWith (List.zipWith (fun x y => (⟨x.re + y.re, x.im + y.im⟩ : Cplx))) a b

/-- Modelled from the spec: the elementwise true mean (m1 + m2 + m3) / 3,
which the code's recurrence does NOT compute.  Used only for comparison
with the source-derived accumulator. -/
def true_mean3 (a b c : Matrix) : Matrix :=
  (mat_add (mat_add a b) c).map (List.map (fun x => (⟨x.re / 3, x.im / 3⟩ : Cplx)))

lemma except_bind_ok {α β ε : Type} (a : α) (f : α → Except ε β) :
    (Except.ok a >>= f) = f a := rfl

/-- Claim C1: the accumulator recurrence.  A new channel stores the matrix
verbatim (so a single accumulation leaves it unchanged element for
element); a channel already holding v is replaced by the elementwise mean
of v and the new matrix; for three matrices m1, m2, m3 received in order
the final stored value is mean(mean(m1, m2), m3); this differs from the
true mean (m1 + m2 + m3) / 3 in general, witnessed by concrete 1x1
matrices. -/
theorem accumulator_recurrence
    (acc acc' : Accum) (ch ch' : Nat) (v m m1 m2 m3 : Matrix)
    (hnew : acc.lookup ch = none)
    (hold : acc'.lookup ch' = some v)
    (hrv : matRect v = true) (hrm : matRect m = true)
    (hsm : matShape v = matShape m)
    (hr1 : matRect m1 = true) (hr2 : matRect m2 = true)
    (hr3 : matRect m3 = true)
    (hs2 : matShape m2 = matShape m1) (hs3 : matShape m3 = matShape m1) :
    (accumulate_vis acc ch m1 = Except.ok (acc ++ [(ch, m1)]) ∧
      (acc ++ [(ch, m1)]).lookup ch = some m1) ∧
    (accumulate_vis acc' ch' m = Except.ok (updateAssoc acc' ch' (mat_mean v m)) ∧
      (updateAssoc acc' ch' (mat_mean v m)).lookup ch' = some (mat_mean v m)) ∧
    (∃ accF, accumulate_seq acc ch [m1, m2, m3] = Except.ok accF ∧
      accF.lookup ch = some (mat_mean (mat_mean m1 m2) m3)) ∧
    mat_mean (mat_mean [[⟨0, 0⟩]] [[⟨0, 0⟩]]) [[⟨1, 0⟩]] ≠
      true_mean3 [[⟨0, 0⟩]] [[⟨0, 0⟩]] [[⟨1, 0⟩]] := by
  have l1 : (acc ++ [(ch, m1)]).lookup ch = some m1 := by
    rw [lookup_append_of_none ch acc _ hnew]
    simp [List.lookup_cons]
  have e1 : accumulate_vis acc ch m1 = Except.ok (acc ++ [(ch, m1)]) := by
    simp [accumulate_vis, hnew]
  have npvm : np_pair_average v m = some (mat_mean v m) := by
    simp [np_pair_average, hrv, hrm, hsm]
  have e2' : accumulate_vis acc' ch' m
      = Except.ok (updateAssoc acc' ch' (mat_mean v m)) := by
    simp [accumulate_vis, hold, npvm]
  have l2' : (updateAssoc acc' ch' (mat_mean v m)).lookup ch'
      = some (mat_mean v m) :=
    lookup_updateAssoc_self ch' (mat_mean v m) acc' v hold
  refine ⟨⟨e1, l1⟩, ⟨e2', l2'⟩, ?_,
    by norm_num [mat_mean, true_mean3, mat_add, cmean, Cplx.mk.injEq]⟩
  have np12 : np_pair_average m1 m2 = some (mat_mean m1 m2) := by
    simp [np_pair_average, hr1, hr2, hs2.symm]
  obtain ⟨hrect12, hshape12⟩ := mat_mean_shape hr1 hr2 hs2.symm
  have np123 : np_pair_average (mat_mean m1 m2) m3
      = some (mat_mean (mat_mean m1 m2) m3) := by
    have : matShape (mat_mean m1 m2) = matShape m3 := by
      rw [hshape12, hs3]
    simp [np_pair_average, hrect12, hr3, this]
  set acc1 := acc ++ [(ch, m1)] with hacc1
  set mm12 := mat_mean m1 m2 with hmm12
  have e2 : accumulate_vis acc1 ch m2 = Except.ok (updateAssoc acc1 ch mm12) := by
    simp [accumulate_vis, l1, np12]
  have l2 : (updateAssoc acc1 ch mm12).lookup ch = some mm12 :=
    lookup_updateAssoc_self ch mm12 acc1 m1 l1
  set acc2 := updateAssoc acc1 ch mm12 with hacc2
  have e3 : accumulate_vis acc2 ch m3
      = Except.ok (updateAssoc acc2 ch (mat_mean mm12 m3)) := by
    simp [accumulate_vis, l2, np123]
  refine ⟨updateAssoc acc2 ch (mat_mean mm12 m3), ?_, ?_⟩
  · simp only [accumulate_seq, List.foldlM_cons, List.foldlM_nil, e1,
      except_bind_ok, e2, e3]
    rfl
  · exact lookup_updateAssoc_self ch (mat_mean mm12 m3) acc2 mm12 l2

/-- Witness for claim C1 at concrete accumulators and 1x1 matrices. -/
theorem accumulator_recurrence_witness :
    (([] : Accum).lookup 5 = none ∧
      ([(9, [[(⟨2, 0⟩ : Cplx)]])] : Accum).lookup 9 = some [[(⟨2, 0⟩ : Cplx)]] ∧
      matRect [[(⟨2, 0⟩ : Cplx)]] = true ∧ matRect [[(⟨4, 0⟩ : Cplx)]] = true ∧
      matShape [[(⟨2, 0⟩ : Cplx)]] = matShape [[(⟨4, 0⟩ : Cplx)]] ∧
      matRect [[(⟨1, 0⟩ : Cplx)]] = true ∧ matRect [[(⟨3, 0⟩ : Cplx)]] = true ∧
      matRect [[(⟨5, 0⟩ : Cplx)]] = true ∧
      matShape [[(⟨3, 0⟩ : Cplx)]] = matShape [[(⟨1, 0⟩ : Cplx)]] ∧
      matShape [[(⟨5, 0⟩ : Cplx)]] = matShape [[(⟨1, 0⟩ : Cplx)]]) ∧
    ((accumulate_vis [] 5 [[(⟨1, 0⟩ : Cplx)]]
        = Except.ok ([] ++ [(5, [[(⟨1, 0⟩ : Cplx)]])]) ∧
      (([] : Accum) ++ [(5, [[(⟨1, 0⟩ : Cplx)]])]).lookup 5
        = some [[(⟨1, 0⟩ : Cplx)]]) ∧
    (accumulate_vis [(9, [[(⟨2, 0⟩ : Cplx)]])] 9 [[(⟨4, 0⟩ : Cplx)]]
        = Except.ok (updateAssoc [(9, [[(⟨2, 0⟩ : Cplx)]])] 9
            (mat_mean [[(⟨2, 0⟩ : Cplx)]] [[(⟨4, 0⟩ : Cplx)]])) ∧
      (updateAssoc [(9, [[(⟨2, 0⟩ : Cplx)]])] 9
          (mat_mean [[(⟨2, 0⟩ : Cplx)]] [[(⟨4, 0⟩ : Cplx)]])).lookup 9
        = some (mat_mean [[(⟨2, 0⟩ : Cplx)]] [[(⟨4, 0⟩ : Cplx)]])) ∧
    (∃ accF, accumulate_seq [] 5
        [[[(⟨1, 0⟩ : Cplx)]], [[(⟨3, 0⟩ : Cplx)]], [[(⟨5, 0⟩ : Cplx)]]]
        = Except.ok accF ∧
      accF.lookup 5 = some (mat_mean
        (mat_mean [[(⟨1, 0⟩ : Cplx)]] [[(⟨3, 0⟩ : Cplx)]]) [[(⟨5, 0⟩ : Cplx)]])) ∧
    mat_mean (mat_mean [[⟨0, 0⟩]] [[⟨0, 0⟩]]) [[⟨1, 0⟩]] ≠
      true_mean3 [[⟨0, 0⟩]] [[⟨0, 0⟩]] [[⟨1, 0⟩]]) :=
  ⟨⟨rfl, rfl, rfl, rfl, rfl, rfl, rfl, rfl, rfl, rfl⟩,
    accumulator_recurrence [] [(9, [[(⟨2, 0⟩ : Cplx)]])] 5 9
      [[(⟨2, 0⟩ : Cplx)]] [[(⟨4, 0⟩ : Cplx)]] [[(⟨1, 0⟩ : Cplx)]]
      [[(⟨3, 0⟩ : Cplx)]] [[(⟨5, 0⟩ : Cplx)]]
      rfl rfl rfl rfl rfl rfl rfl rfl rfl rfl⟩

/-! ## Claim C6: shape mismatch -/

/-- A 2x2 all-zero matrix. -/
def mat22zero : Matrix :=
  [[⟨0, 0⟩, ⟨0, 0⟩], [⟨0, 0⟩, ⟨0, 0⟩]]

/-- A 3x3 all-zero matrix. -/
def mat33zero : Matrix :=
  [[⟨0, 0⟩, ⟨0, 0⟩, ⟨0, 0⟩], [⟨0, 0⟩, ⟨0, 0⟩, ⟨0, 0⟩], [⟨0, 0⟩, ⟨0, 0⟩, ⟨0, 0⟩]]

/-- Claim C6 counterexample: accumulating a 3x3 matrix over a stored 2x2
matrix for channel 7 fails with numpy's inhomogeneous-shape ValueError,
which carries neither the channel id nor the two shapes; it is not an
error of the spec-described ShapeMismatch form. -/
theorem shape_mismatch_claim_counterexample :
    accumulate_vis [(7, mat22zero)] 7 mat33zero
      = Except.error VisError.numpy_inhomogeneous_error ∧
    ¬ ∃ chv s1 s2, accumulate_vis [(7, mat22zero)] 7 mat33zero
      = Except.error (VisError.spec_shape_mismatch chv s1 s2) := by
  constructor
  · rfl
  · rintro ⟨chv, s1, s2, hcontra⟩
    rw [show accumulate_vis [(7, mat22zero)] 7 mat33zero
        = Except.error VisError.numpy_inhomogeneous_error from rfl] at hcontra
    simp at hcontra

/-- Claim C6 (amended): accumulating a matrix whose shape differs from the
one already stored for the channel fails fatally with numpy's ValueError
(which carries neither the channel id nor the two shapes), no updated
accumulator is produced, and the stored value for the channel remains what
it was. -/
theorem shape_mismatch_fatal (acc : Accum) (ch : Nat) (v m : Matrix)
    (hold : acc.lookup ch = some v)
    (_hrv : matRect v = true) (_hrm : matRect m = true)
    (hne : matShape v ≠ matShape m) :
    accumulate_vis acc ch m = Except.error VisError.numpy_inhomogeneous_error ∧
    (∀ acc2, accumulate_vis acc ch m ≠ Except.ok acc2) ∧
    acc.lookup ch = some v := by
  have hnp : np_pair_average v m = none := by
    simp [np_pair_average, hne]
  have he : accumulate_vis acc ch m
      = Except.error VisError.numpy_inhomogeneous_error := by
    simp [accumulate_vis, hold, hnp]
  refine ⟨he, ?_, hold⟩
  intro acc2 hcontra
  rw [he] at hcontra
  simp at hcontra

/-- Witness for claim C6 at channel 7 with a stored 2x2 and a new 3x3
matrix. -/
theorem shape_mismatch_fatal_witness :
    (([(7, mat22zero)] : Accum).lookup 7 = some mat22zero ∧
      matRect mat22zero = true ∧ matRect mat33zero = true ∧
      matShape mat22zero ≠ matShape mat33zero) ∧
    (accumulate_vis [(7, mat22zero)] 7 mat33zero
        = Except.error VisError.numpy_inhomogeneous_error ∧
      (∀ acc2, accumulate_vis [(7, mat22zero)] 7 mat33zero ≠ Except.ok acc2) ∧
      ([(7, mat22zero)] : Accum).lookup 7 = some mat22zero) :=
  ⟨⟨rfl, rfl, rfl, by decide⟩,
    shape_mismatch_fatal [(7, mat22zero)] 7 mat22zero mat33zero
      rfl rfl rfl (by decide)⟩

/-! ## Claim C10: skipped heaps -/

/-- Claim C10: an end-of-stream heap, and a data heap whose items do not
contain the key Corre, leave the reader state (headers and accumulator)
exactly unchanged and raise no error. -/
theorem skipped_heaps_state_unchanged (st : VisState) (heap : SpeadHeap)
    (items : Items) :
    (heap.is_end_of_stream = true → vis_step st (heap, items) = Except.ok st) ∧
    (heap.role = HeapRole.data_heap → items.lookup "Corre" = none →
      vis_step st (heap, items) = Except.ok st) := by
  constructor
  · intro h
    have hrole : heap.role = HeapRole.end_of_stream := by
      simpa [SpeadHeap.is_end_of_stream] using h
    simp [vis_step, SpeadHeap.is_start_of_stream, SpeadHeap.is_end_of_stream,
      hrole]
  · intro hrole hcorre
    simp [vis_step, SpeadHeap.is_start_of_stream, SpeadHeap.is_end_of_stream,
      hrole, hcorre]

/-- Witness for claim C10 on a concrete state, an end-of-stream heap, and
a Corre-less data heap. -/
theorem skipped_heaps_state_unchanged_witness :
    ((SpeadHeap.mk 0 HeapRole.end_of_stream).is_end_of_stream = true ∧
      (SpeadHeap.mk 0 HeapRole.data_heap).role = HeapRole.data_heap ∧
      ([] : Items).lookup "Corre" = none) ∧
    (vis_step ⟨[], []⟩ (SpeadHeap.mk 0 HeapRole.end_of_stream, []) =
        Except.ok ⟨[], []⟩ ∧
      vis_step ⟨[], []⟩ (SpeadHeap.mk 0 HeapRole.data_heap, []) =
        Except.ok ⟨[], []⟩) :=
  ⟨⟨rfl, rfl, rfl⟩,
    (skipped_heaps_state_unchanged ⟨[], []⟩
        (SpeadHeap.mk 0 HeapRole.end_of_stream) []).1 rfl,
    (skipped_heaps_state_unchanged ⟨[], []⟩
        (SpeadHeap.mk 0 HeapRole.data_heap) []).2 rfl rfl⟩

/-! ## Finalization: the DataFrame and the stacked matrices
(low_cbf_vis.py lines 119-122) -/

/-- Model of pandas DataFrame built from a list of row mappings: the
columns are the union of the row keys in order of first appearance. -/
def dedup_first_str (xs : List String) : List String :=
  xs.foldl (fun acc k => if k ∈ acc then acc else acc ++ [k]) []

/-- The columns of the pandas DataFrame built from the header rows. -/
def table_columns (rows : List (List (String × ItemValue))) : List String :=
  dedup_first_str (rows.flatMap (fun r => r.map Prod.fst))

/-- A cell of the pandas DataFrame: the value of column c in row i, none
standing for a missing (NaN) cell. -/
def table_cell (rows : List (List (String × ItemValue))) (i : Nat)
    (c : String) : Option ItemValue :=
  (rows.get? i).bind (fun r => r.lookup c)

/-- Model of numpy stack over the accumulator values: defined only for a
nonempty list of rectangular matrices of one common shape, and then it
preserves the sequence. -/
def np_stack (ms : List Matrix) : Option (List Matrix) :=
  match ms with
  | [] => none
  | m0 :: rest =>
    if (m0 :: rest).all (fun x => matRect x && decide (matShape x = matShape m0)) then
      some (m0 :: rest)
    else
      none

/-- Python dict insertion-order key discipline: adding key k to the key
sequence ks leaves ks unchanged when k is already present and appends it
otherwise. -/
def insert_key (ks : List Nat) (k : Nat) : List Nat :=
  if k ∈ ks then ks else ks ++ [k]

/-- The keys of a Python dict after inserting a sequence of keys in
order: first occurrences, in order. -/
def dedup_first (xs : List Nat) : List Nat :=
  xs.foldl insert_key []

/-- The channel id a heap contributes to the accumulator, if any: a data
heap carrying a Corre item accumulates under its decoded channel id, all
other heaps accumulate nothing. -/
def heap_accum_channel (hi : SpeadHeap × Items) : Option Nat :=
  if hi.1.is_start_of_stream then none
  else if hi.1.is_end_of_stream then none
  else
    match hi.2.lookup "Corre" with
    | some _ => some (channel_id_of_cnt hi.1.cnt)
    | none => none

/-- The channel ids of the accumulating heaps of a stream, in file
order. -/
def accum_channel_ids (stream : List (SpeadHeap × Items)) : List Nat :=
  stream.filterMap heap_accum_channel

lemma except_bind_error {α β ε : Type} (e : ε) (f : α → Except ε β) :
    (Except.error e >>= f) = Except.error e := rfl

/-! ## Per-step effect lemmas for the visibility reader -/

lemma vis_step_headers {st st1 : VisState} {hi : SpeadHeap × Items}
    (h : vis_step st hi = Except.ok st1) :
    st1.headers = st.headers ++
      (if hi.1.is_start_of_stream then [row_of_items hi.2] else []) := by
  unfold vis_step at h
  by_cases hsos : hi.1.is_start_of_stream = true
  · rw [if_pos hsos] at h
    rw [if_pos hsos]
    cases h
    rfl
  · rw [if_neg hsos] at h
    rw [if_neg hsos, List.append_nil]
    by_cases heos : hi.1.is_end_of_stream = true
    · rw [if_pos heos] at h
      cases h
      rfl
    · rw [if_neg heos] at h
      split at h
      next => cases h; rfl
      next item hcorre =>
        split at h
        next => cases h
        next dm hvis =>
          dsimp only at h
          split at h
          next acc hacc => cases h; rfl
          next e hacc => cases h

lemma accumulate_vis_keys {acc acc' : Accum} {ch : Nat} {m : Matrix}
    (h : accumulate_vis acc ch m = Except.ok acc') :
    acc'.map Prod.fst = insert_key (acc.map Prod.fst) ch := by
  unfold accumulate_vis at h
  split at h
  next v hl =>
    split at h
    next avg hnp =>
      cases h
      rw [updateAssoc_keys, insert_key, if_pos (lookup_some_mem ch acc v hl)]
    next hnp => cases h
  next hl =>
    cases h
    rw [List.map_append, insert_key, if_neg (lookup_none_not_mem ch acc hl)]
    rfl

lemma vis_step_keys_none {st st1 : VisState} {hi : SpeadHeap × Items}
    (h : vis_step st hi = Except.ok st1)
    (hch : heap_accum_channel hi = none) :
    st1.averaged_data = st.averaged_data := by
  unfold vis_step at h
  unfold heap_accum_channel at hch
  by_cases hsos : hi.1.is_start_of_stream = true
  · rw [if_pos hsos] at h
    cases h
    rfl
  · rw [if_neg hsos] at h
    rw [if_neg hsos] at hch
    by_cases heos : hi.1.is_end_of_stream = true
    · rw [if_pos heos] at h
      cases h
      rfl
    · rw [if_neg heos] at h
      rw [if_neg heos] at hch
      split at h
      next => cases h; rfl
      next item hcorre => rw [hcorre] at hch; cases hch

lemma vis_step_keys_some {st st1 : VisState} {hi : SpeadHeap × Items}
    {ch : Nat} (h : vis_step st hi = Except.ok st1)
    (hch : heap_accum_channel hi = some ch) :
    st1.averaged_data.map Prod.fst
      = insert_key (st.averaged_data.map Prod.fst) ch := by
  unfold vis_step at h
  unfold heap_accum_channel at hch
  by_cases hsos : hi.1.is_start_of_stream = true
  · rw [if_pos hsos] at hch; cases hch
  · rw [if_neg hsos] at h hch
    by_cases heos : hi.1.is_end_of_stream = true
    · rw [if_pos heos] at hch; cases hch
    · rw [if_neg heos] at h hch
      split at h
      next hcorre => rw [hcorre] at hch; cases hch
      next item hcorre =>
        rw [hcorre] at hch
        cases hch
        split at h
        next => cases h
        next dm hvis =>
          dsimp only at h
          split at h
          next acc hacc =>
            cases h
            exact accumulate_vis_keys hacc
          next e hacc => cases h

/-! ## Stream-level lemmas for the visibility reader -/

lemma read_fold_headers :
    ∀ (stream : List (SpeadHeap × Items)) (st0 st : VisState),
      stream.foldlM vis_step st0 = Except.ok st →
      st.headers = st0.headers ++
        ((stream.filter (fun hi => hi.1.is_start_of_stream)).map
          (fun hi => row_of_items hi.2)) := by
  intro stream
  induction stream with
  | nil =>
    intro st0 st h
    cases h
    simp
  | cons hi rest ih =>
    intro st0 st h
    rw [List.foldlM_cons] at h
    cases hstep : vis_step st0 hi with
    | error e => rw [hstep, except_bind_error] at h; cases h
    | ok st1 =>
      rw [hstep, except_bind_ok] at h
      have h1 := vis_step_headers hstep
      have h2 := ih st1 st h
      rw [h2, h1]
      by_cases hsos : hi.1.is_start_of_stream = true
      · simp [List.filter_cons, hsos, List.append_assoc]
      · simp [List.filter_cons, hsos]

lemma read_fold_keys :
    ∀ (stream : List (SpeadHeap × Items)) (st0 st : VisState),
      stream.foldlM vis_step st0 = Except.ok st →
      st.averaged_data.map Prod.fst =
        (accum_channel_ids stream).foldl insert_key
          (st0.averaged_data.map Prod.fst) := by
  intro stream
  induction stream with
  | nil =>
    intro st0 st h
    cases h
    rfl
  | cons hi rest ih =>
    intro st0 st h
    rw [List.foldlM_cons] at h
    cases hstep : vis_step st0 hi with
    | error e => rw [hstep, except_bind_error] at h; cases h
    | ok st1 =>
      rw [hstep, except_bind_ok] at h
      have h2 := ih st1 st h
      rw [h2]
      cases hch : heap_accum_channel hi with
      | none =>
        simp only [accum_channel_ids, List.filterMap_cons, hch]
        rw [vis_step_keys_none hstep hch]
      | some ch =>
        simp only [accum_channel_ids, List.filterMap_cons, hch,
          List.foldl_cons]
        rw [vis_step_keys_some hstep hch]

lemma mem_foldl_insert_str :
    ∀ (xs acc : List String) (a : String),
      (a ∈ xs.foldl (fun acc k => if k ∈ acc then acc else acc ++ [k]) acc ↔
        a ∈ acc ∨ a ∈ xs) := by
  intro xs
  induction xs with
  | nil => intro acc a; simp
  | cons x t ih =>
    intro acc a
    rw [List.foldl_cons, ih]
    by_cases hx : x ∈ acc
    · rw [if_pos hx]
      constructor
      · rintro (h1 | h2)
        · exact Or.inl h1
        · exact Or.inr (List.mem_cons_of_mem x h2)
      · rintro (h1 | h2)
        · exact Or.inl h1
        · rcases List.mem_cons.mp h2 with h3 | h4
          · exact Or.inl (h3 ▸ hx)
          · exact Or.inr h4
    · rw [if_neg hx]
      constructor
      · rintro (h1 | h2)
        · rcases List.mem_append.mp h1 with h3 | h4
          · exact Or.inl h3
          · simp at h4
            exact Or.inr (List.mem_cons.mpr (Or.inl h4))
        · exact Or.inr (List.mem_cons_of_mem x h2)
      · rintro (h1 | h2)
        · exact Or.inl (List.mem_append.mpr (Or.inl h1))
        · rcases List.mem_cons.mp h2 with h3 | h4
          · exact Or.inl (by simp [h3])
          · exact Or.inr h4

lemma insert_key_nodup {ks : List Nat} (h : ks.Nodup) (k : Nat) :
    (insert_key ks k).Nodup := by
  unfold insert_key
  split
  · exact h
  · next hk => simp [List.nodup_append, h, hk]

lemma foldl_insert_key_nodup :
    ∀ (xs ks : List Nat), ks.Nodup → (xs.foldl insert_key ks).Nodup := by
  intro xs
  induction xs with
  | nil => intro ks h; exact h
  | cons x t ih =>
    intro ks h
    rw [List.foldl_cons]
    exact ih _ (insert_key_nodup h x)

/-- Claim C8: one header row per start-of-stream heap, in file order, with
the item names of that heap mapped to their values as-is and no
deduplication; the table's columns are the union of all column names seen
in order of first appearance, and a cell of a column absent from a row is
missing. -/
theorem metadata_collection (stream : List (SpeadHeap × Items))
    (st : VisState) (h : read_visibilities_state stream = Except.ok st) :
    st.headers = (stream.filter (fun hi => hi.1.is_start_of_stream)).map
        (fun hi => row_of_items hi.2) ∧
    st.headers.length
      = stream.countP (fun hi => hi.1.is_start_of_stream) ∧
    (∀ c, c ∈ table_columns st.headers ↔
      ∃ r ∈ st.headers, c ∈ r.map Prod.fst) ∧
    (∀ i r c, st.headers.get? i = some r → r.lookup c = none →
      table_cell st.headers i c = none) ∧
    (∀ i r c w, st.headers.get? i = some r → r.lookup c = some w →
      table_cell st.headers i c = some w) := by
  have h1 : st.headers = (stream.filter (fun hi => hi.1.is_start_of_stream)).map
      (fun hi => row_of_items hi.2) := by
    have := read_fold_headers stream ⟨[], []⟩ st h
    simpa using this
  refine ⟨h1, ?_, ?_, ?_, ?_⟩
  · rw [h1, List.length_map, ← List.countP_eq_length_filter]
  · intro c
    rw [table_columns, dedup_first_str, mem_foldl_insert_str]
    simp [List.mem_flatMap]
  · intro i r c hget hnone
    rw [table_cell, hget]
    simpa using hnone
  · intro i r c w hget hsome
    rw [table_cell, hget]
    simpa using hsome

/-- Claim C9: the final accumulator holds one matrix per distinct channel
id, with keys ordered by the first accumulation of each channel, and a
successful numpy stack preserves exactly that sequence of matrices. -/
theorem finalization_insertion_order (stream : List (SpeadHeap × Items))
    (st : VisState) (h : read_visibilities_state stream = Except.ok st) :
    st.averaged_data.map Prod.fst = dedup_first (accum_channel_ids stream) ∧
    (st.averaged_data.map Prod.fst).Nodup ∧
    (∀ ms, np_stack (st.averaged_data.map Prod.snd) = some ms →
      ms = st.averaged_data.map Prod.snd) := by
  have h1 : st.averaged_data.map Prod.fst
      = dedup_first (accum_channel_ids stream) := by
    have := read_fold_keys stream ⟨[], []⟩ st h
    simpa [dedup_first] using this
  refine ⟨h1, ?_, ?_⟩
  · rw [h1, dedup_first]
    exact foldl_insert_key_nodup _ [] List.nodup_nil
  · intro ms hms
    unfold np_stack at hms
    split at hms
    · cases hms
    next m0 rest heq =>
      split at hms
      · cases hms
        exact heq.symm
      · cases hms

/-- A concrete stream of two start-of-stream heaps carrying rows with keys
a, and a and b. -/
def c8_stream : List (SpeadHeap × Items) :=
  [(⟨0, HeapRole.start_of_stream⟩, [("a", ⟨ItemValue.intV 1⟩)]),
   (⟨1, HeapRole.start_of_stream⟩,
      [("a", ⟨ItemValue.intV 2⟩), ("b", ⟨ItemValue.intV 9⟩)])]

/-- The reader state produced by the c8 stream. -/
def c8_state : VisState :=
  ⟨[[("a", ItemValue.intV 1)], [("a", ItemValue.intV 2), ("b", ItemValue.intV 9)]],
    []⟩

/-- Witness for claim C8 on the concrete two-heap stream. -/
theorem metadata_collection_witness :
    read_visibilities_state c8_stream = Except.ok c8_state ∧
    (c8_state.headers = (c8_stream.filter (fun hi => hi.1.is_start_of_stream)).map
        (fun hi => row_of_items hi.2) ∧
      c8_state.headers.length
        = c8_stream.countP (fun hi => hi.1.is_start_of_stream)) :=
  ⟨rfl,
    (metadata_collection c8_stream c8_state rfl).1,
    (metadata_collection c8_stream c8_state rfl).2.1⟩

/-- A concrete stream of two data heaps on channels 5 and 3, each carrying
one 1x1 visibility matrix. -/
def c9_stream : List (SpeadHeap × Items) :=
  [(⟨5 * 2 ^ 16, HeapRole.data_heap⟩,
      [("Corre", ⟨ItemValue.structuredV [("VIS", [[⟨1, 0⟩]])]⟩)]),
   (⟨3 * 2 ^ 16, HeapRole.data_heap⟩,
      [("Corre", ⟨ItemValue.structuredV [("VIS", [[⟨2, 0⟩]])]⟩)])]

/-- The reader state produced by the c9 stream. -/
def c9_state : VisState :=
  ⟨[], [(5, [[⟨1, 0⟩]]), (3, [[⟨2, 0⟩]])]⟩

/-- Witness for claim C9 on the concrete two-channel stream. -/
theorem finalization_insertion_order_witness :
    read_visibilities_state c9_stream = Except.ok c9_state ∧
    c9_state.averaged_data.map Prod.fst
      = dedup_first (accum_channel_ids c9_stream) :=
  ⟨rfl, (finalization_insertion_order c9_stream c9_state rfl).1⟩

/-! ## The synchronous visitor reader (spead.py, function read_pcap_file)

The Python visitors mutate themselves; here each visitor's mutable state
is threaded explicitly as a value, and a callback that raises returns an
error value.  The reader's observable behaviour is collected in a result
record: the terminal outcome, the final visitor states, the dispatch
trace, whether the stream was stopped, the value returned to the caller,
and the heap count reported on the final log line. -/

/-- A SPEAD heap visitor (spead.py class SpeadHeapVisitor): one callback
per heap role. -/
structure SpeadHeapVisitor (σ ε : Type) where
  visit_start_of_stream_heap : σ → SpeadHeap → Items → Except ε σ
  visit_data_heap : σ → SpeadHeap → Items → Except ε σ
  visit_end_of_stream_heap : σ → SpeadHeap → Items → Except ε σ

/-- The role selection of spead.py lines 74-83: is_start_of_stream is
checked first, then is_end_of_stream, otherwise the data callback runs. -/
def visitor_call {σ ε : Type} (v : SpeadHeapVisitor σ ε) (s : σ)
    (h : SpeadHeap) (items : Items) : Except ε σ :=
  if h.is_start_of_stream then v.visit_start_of_stream_heap s h items
  else if h.is_end_of_stream then v.visit_end_of_stream_heap s h items
  else v.visit_data_heap s h items

/-- One visitor method invocation, recorded in the dispatch trace. -/
structure ReadEvent where
  visitor_idx : Nat
  heap_idx : Nat
  role : HeapRole
deriving DecidableEq, Repr

/-- The effect of dispatching one heap to the visitor list in
registration order: the calls made, the updated visitor list, and the
error a visitor raised, if any; after an error the remaining visitors are
not called. -/
structure DispatchOut (σ ε : Type) where
  events : List ReadEvent
  pairs : List (SpeadHeapVisitor σ ε × σ)
  err : Option ε

/-- Dispatch of one heap to every visitor in registration order
(spead.py lines 74-83). -/
def dispatch_heap {σ ε : Type} (h : SpeadHeap) (items : Items)
    (hIdx : Nat) : Nat → List (SpeadHeapVisitor σ ε × σ) → DispatchOut σ ε
  | _, [] => ⟨[], [], none⟩
  | vIdx, (v, s) :: rest =>
    match visitor_call v s h items with
    | Except.ok s' =>
      let r := dispatch_heap h items hIdx (vIdx + 1) rest
      ⟨⟨vIdx, hIdx, h.role⟩ :: r.events, (v, s') :: r.pairs, r.err⟩
    | Except.error e => ⟨[⟨vIdx, hIdx, h.role⟩], (v, s) :: rest, some e⟩

/-- The terminal outcome of the reader. -/
inductive ReadOutcome (ε : Type) where
  | completed : ReadOutcome ε
  | aborted : ReadOutcome ε
  | failed : ε → ReadOutcome ε
deriving DecidableEq, Repr

/-- The observable result of the reader: spead.py read_pcap_file returns
None on every path, so returned_value is none throughout; the total heap
count appears only in the final log line (heap_number + 1), recorded here
as logged_heap_count of the completed path. -/
structure ReadResult (σ ε : Type) where
  outcome : ReadOutcome ε
  pairs : List (SpeadHeapVisitor σ ε × σ)
  trace : List ReadEvent
  stream_stopped : Bool
  returned_value : Option Nat
  logged_heap_count : Option Nat

/-- The loop of spead.py lines 56-86: for each heap the abort event is
polled first (stop and return on abort, before any dispatch for that
heap); otherwise the heap is dispatched to every visitor; a visitor
exception propagates immediately with the stream left open (there is no
try/finally in spead.py); on exhaustion the stream is stopped and
heap_number + 1 is logged. -/
def read_loop {σ ε : Type} (abort_set : Nat → Bool) :
    List (SpeadHeapVisitor σ ε × σ) → Nat → List (SpeadHeap × Items) →
      ReadResult σ ε
  | pairs, idx, [] =>
    ⟨ReadOutcome.completed, pairs, [], true, none,
      some (if idx = 0 then 1 else idx)⟩
  | pairs, idx, (h, items) :: rest =>
    if abort_set idx then
      ⟨ReadOutcome.aborted, pairs, [], true, none, none⟩
    else
      match dispatch_heap h items idx 0 pairs with
      | ⟨events, pairs', some e⟩ =>
        ⟨ReadOutcome.failed e, pairs', events, false, none, none⟩
      | ⟨events, pairs', none⟩ =>
        let r := read_loop abort_set pairs' (idx + 1) rest
        { r with trace := events ++ r.trace }

/-- The reader entry point: spead.py read_pcap_file over the decoded heap
stream of a capture file. -/
def read_pcap_file {σ ε : Type} (pairs : List (SpeadHeapVisitor σ ε × σ))
    (abort_set : Nat → Bool) (heaps : List (SpeadHeap × Items)) :
    ReadResult σ ε :=
  read_loop abort_set pairs 0 heaps

/-- The dispatch schedule the spec describes: for each heap in file order,
one call per registered visitor in registration order, to the callback of
the heap's role. -/
def canonical_trace (M : Nat) : Nat → List (SpeadHeap × Items) → List ReadEvent
  | _, [] => []
  | idx, hi :: rest =>
    ((List.range M).map (fun i => ⟨i, idx, hi.1.role⟩)) ++
      canonical_trace M (idx + 1) rest

/-- A visitor none of whose callbacks raises. -/
def visitor_total {σ ε : Type} (v : SpeadHeapVisitor σ ε) : Prop :=
  ∀ s h items, ∃ s', visitor_call v s h items = Except.ok s'

/-- A visitor list none of whose callbacks raises. -/
def all_total {σ ε : Type} (pairs : List (SpeadHeapVisitor σ ε × σ)) : Prop :=
  ∀ p ∈ pairs, visitor_total p.1

/-! ## Dispatch lemmas -/

lemma dispatch_heap_total {σ ε : Type} (h : SpeadHeap) (items : Items)
    (hIdx : Nat) :
    ∀ (pairs : List (SpeadHeapVisitor σ ε × σ)) (vIdx : Nat),
      all_total pairs →
      (dispatch_heap h items hIdx vIdx pairs).err = none ∧
      (dispatch_heap h items hIdx vIdx pairs).events
        = (List.range pairs.length).map (fun i => ⟨vIdx + i, hIdx, h.role⟩) ∧
      (dispatch_heap h items hIdx vIdx pairs).pairs.length = pairs.length ∧
      all_total (dispatch_heap h items hIdx vIdx pairs).pairs := by
  intro pairs
  induction pairs with
  | nil =>
    intro vIdx _
    refine ⟨rfl, by simp [dispatch_heap], rfl, ?_⟩
    intro p hp
    simp [dispatch_heap] at hp
  | cons p t ih =>
    intro vIdx htot
    obtain ⟨v, s⟩ := p
    have hv : visitor_total v := htot (v, s) (by simp)
    obtain ⟨s', hs'⟩ := hv s h items
    have htott : all_total t := fun q hq => htot q (List.mem_cons_of_mem _ hq)
    obtain ⟨ih1, ih2, ih3, ih4⟩ := ih (vIdx + 1) htott
    simp only [dispatch_heap, hs']
    refine ⟨ih1, ?_, by simpa using ih3, ?_⟩
    · rw [ih2, List.length_cons, List.range_succ_eq_map, List.map_cons,
        List.map_map]
      refine congrArg₂ List.cons (by simp) ?_
      apply List.map_congr_left
      intro i _
      simp only [Function.comp_apply]
      congr 1
      omega
    · intro q hq
      rcases List.mem_cons.mp hq with hq1 | hq2
      · rw [hq1]
        exact hv
      · exact ih4 q hq2

lemma dispatch_heap_events_idx {σ ε : Type} (h : SpeadHeap) (items : Items)
    (hIdx : Nat) :
    ∀ (pairs : List (SpeadHeapVisitor σ ε × σ)) (vIdx : Nat),
      ∀ e ∈ (dispatch_heap h items hIdx vIdx pairs).events,
        e.heap_idx = hIdx := by
  intro pairs
  induction pairs with
  | nil => intro vIdx e he; simp [dispatch_heap] at he
  | cons p t ih =>
    intro vIdx e he
    obtain ⟨v, s⟩ := p
    cases hc : visitor_call v s h items with
    | ok s' =>
      simp only [dispatch_heap, hc] at he
      rcases List.mem_cons.mp he with he1 | he2
      · rw [he1]
      · exact ih (vIdx + 1) e he2
    | error er =>
      simp only [dispatch_heap, hc] at he
      rcases List.mem_cons.mp he with he1 | he2
      · rw [he1]
      · simp at he2

/-! ## Read-loop lemmas -/

lemma read_loop_trace_abort {σ ε : Type} (abort_set : Nat → Bool) :
    ∀ (heaps : List (SpeadHeap × Items))
      (pairs : List (SpeadHeapVisitor σ ε × σ)) (idx : Nat),
      ∀ e ∈ (read_loop abort_set pairs idx heaps).trace,
        abort_set e.heap_idx = false ∧ idx ≤ e.heap_idx := by
  intro heaps
  induction heaps with
  | nil => intro pairs idx e he; simp [read_loop] at he
  | cons hi rest ih =>
    intro pairs idx e he
    obtain ⟨h, items⟩ := hi
    simp only [read_loop] at he
    split at he
    · simp at he
    next hab =>
      have hab' : abort_set idx = false := by simpa using hab
      split at he
      next events pairs' e2 heq =>
        have he' : e ∈ (dispatch_heap h items idx 0 pairs).events := by
          rw [heq]
          exact he
        have hidx := dispatch_heap_events_idx h items idx pairs 0 e he'
        exact ⟨hidx ▸ hab', hidx ▸ le_refl idx⟩
      next events pairs' heq =>
        simp only [List.mem_append] at he
        rcases he with he1 | he2
        · have he' : e ∈ (dispatch_heap h items idx 0 pairs).events := by
            rw [heq]
            exact he1
          have hidx := dispatch_heap_events_idx h items idx pairs 0 e he'
          exact ⟨hidx ▸ hab', hidx ▸ le_refl idx⟩
        · have := ih pairs' (idx + 1) e he2
          exact ⟨this.1, by omega⟩

lemma read_loop_completed {σ ε : Type} (abort_set : Nat → Bool)
    (hnone : ∀ n, abort_set n = false) :
    ∀ (heaps : List (SpeadHeap × Items))
      (pairs : List (SpeadHeapVisitor σ ε × σ)) (idx : Nat),
      all_total pairs →
      (read_loop abort_set pairs idx heaps).outcome = ReadOutcome.completed ∧
      (read_loop abort_set pairs idx heaps).stream_stopped = true ∧
      (read_loop abort_set pairs idx heaps).returned_value = none ∧
      (read_loop abort_set pairs idx heaps).logged_heap_count
        = some (if idx + heaps.length = 0 then 1 else idx + heaps.length) := by
  intro heaps
  induction heaps with
  | nil =>
    intro pairs idx _
    simp [read_loop]
  | cons hi rest ih =>
    intro pairs idx htot
    obtain ⟨h, items⟩ := hi
    obtain ⟨hd1, _, _, hd4⟩ := dispatch_heap_total h items idx pairs 0 htot
    rcases hd : dispatch_heap h items idx 0 pairs with ⟨events, pairs', er⟩
    have her : er = none := by rw [hd] at hd1; exact hd1
    subst her
    have htot' : all_total pairs' := by rw [hd] at hd4; exact hd4
    have := ih pairs' (idx + 1) htot'
    have hcond : ¬ (abort_set idx = true) := by simp [hnone idx]
    simp only [read_loop, if_neg hcond, hd]
    refine ⟨this.1, this.2.1, this.2.2.1, ?_⟩
    rw [this.2.2.2]
    have c1 : ¬ (idx + 1 + rest.length = 0) := by omega
    have c2 : ¬ (idx + ((h, items) :: rest).length = 0) := by
      simp only [List.length_cons]
      omega
    rw [if_neg c1, if_neg c2]
    exact congrArg some (by simp only [List.length_cons]; omega)

lemma read_loop_aborted {σ ε : Type} (abort_set : Nat → Bool) :
    ∀ (heaps : List (SpeadHeap × Items))
      (pairs : List (SpeadHeapVisitor σ ε × σ)) (idx t : Nat),
      all_total pairs → idx ≤ t → t < idx + heaps.length →
      abort_set t = true →
      (read_loop abort_set pairs idx heaps).outcome = ReadOutcome.aborted ∧
      (read_loop abort_set pairs idx heaps).stream_stopped = true ∧
      (read_loop abort_set pairs idx heaps).returned_value = none ∧
      (read_loop abort_set pairs idx heaps).logged_heap_count = none := by
  intro heaps
  induction heaps with
  | nil =>
    intro pairs idx t _ h1 h2 _
    simp at h2
    omega
  | cons hi rest ih =>
    intro pairs idx t htot h1 h2 habt
    obtain ⟨h, items⟩ := hi
    by_cases hab : abort_set idx = true
    · simp [read_loop, hab]
    · have hne : idx ≠ t := by
        intro hcontra
        rw [hcontra] at hab
        exact hab habt
      obtain ⟨hd1, _, _, hd4⟩ := dispatch_heap_total h items idx pairs 0 htot
      rcases hd : dispatch_heap h items idx 0 pairs with ⟨events, pairs', er⟩
      have her : er = none := by rw [hd] at hd1; exact hd1
      subst her
      have htot' : all_total pairs' := by rw [hd] at hd4; exact hd4
      have := ih pairs' (idx + 1) t htot' (by omega)
        (by simp only [List.length_cons] at h2 ⊢; omega) habt
      simp only [read_loop, if_neg hab, hd]
      exact this

lemma read_loop_failed_not_stopped {σ ε : Type} (abort_set : Nat → Bool) :
    ∀ (heaps : List (SpeadHeap × Items))
      (pairs : List (SpeadHeapVisitor σ ε × σ)) (idx : Nat) (e : ε),
      (read_loop abort_set pairs idx heaps).outcome = ReadOutcome.failed e →
      (read_loop abort_set pairs idx heaps).stream_stopped = false := by
  intro heaps
  induction heaps with
  | nil =>
    intro pairs idx e h
    simp [read_loop] at h
  | cons hi rest ih =>
    intro pairs idx e h
    obtain ⟨h2, items⟩ := hi
    by_cases hab : abort_set idx = true
    · simp [read_loop, hab] at h
    · rcases hd : dispatch_heap h2 items idx 0 pairs with ⟨events, pairs', er⟩
      cases er with
      | some e2 => simp [read_loop, hab, hd]
      | none =>
        simp only [read_loop, if_neg hab, hd] at h ⊢
        exact ih pairs' (idx + 1) e h

lemma read_loop_trace_canonical {σ ε : Type} (abort_set : Nat → Bool)
    (hnone : ∀ n, abort_set n = false) :
    ∀ (heaps : List (SpeadHeap × Items))
      (pairs : List (SpeadHeapVisitor σ ε × σ)) (idx : Nat),
      all_total pairs →
      (read_loop abort_set pairs idx heaps).trace
        = canonical_trace pairs.length idx heaps := by
  intro heaps
  induction heaps with
  | nil =>
    intro pairs idx _
    simp [read_loop, canonical_trace]
  | cons hi rest ih =>
    intro pairs idx htot
    obtain ⟨h, items⟩ := hi
    obtain ⟨hd1, hd2, hd3, hd4⟩ := dispatch_heap_total h items idx pairs 0 htot
    rcases hd : dispatch_heap h items idx 0 pairs with ⟨events, pairs', er⟩
    have her : er = none := by rw [hd] at hd1; exact hd1
    subst her
    have htot' : all_total pairs' := by rw [hd] at hd4; exact hd4
    have hlen : pairs'.length = pairs.length := by rw [hd] at hd3; exact hd3
    have hev : events = (List.range pairs.length).map
        (fun i => ⟨0 + i, idx, h.role⟩) := by
      rw [hd] at hd2
      exact hd2
    have hcond : ¬ (abort_set idx = true) := by simp [hnone idx]
    simp only [read_loop, if_neg hcond, hd]
    rw [ih pairs' (idx + 1) htot', hlen, canonical_trace, hev]
    refine congrArg₂ List.append ?_ rfl
    apply List.map_congr_left
    intro i _
    simp

/-! ## Counting lemmas on the dispatch schedule -/

lemma countP_range_eq (i : Nat) :
    ∀ M, (List.range M).countP (fun j => decide (j = i))
      = if i < M then 1 else 0 := by
  intro M
  induction M with
  | zero => simp
  | succ n ih =>
    rw [List.range_succ, List.countP_append, ih]
    rcases Nat.lt_trichotomy i n with hlt | heq | hgt
    · rw [if_pos hlt, if_pos (by omega)]
      have : (List.countP (fun j => decide (j = i)) [n]) = 0 := by
        simp [List.countP_cons]
        omega
      omega
    · subst heq
      rw [if_neg (by omega), if_pos (by omega)]
      simp [List.countP_cons]
    · rw [if_neg (by omega), if_neg (by omega)]
      have : (List.countP (fun j => decide (j = i)) [n]) = 0 := by
        simp [List.countP_cons]
        omega
      omega

lemma canonical_countP_role (M i : Nat) (r : HeapRole) (hi : i < M) :
    ∀ (heaps : List (SpeadHeap × Items)) (idx : Nat),
      (canonical_trace M idx heaps).countP
          (fun e => decide (e.visitor_idx = i ∧ e.role = r))
        = heaps.countP (fun hi2 => decide (hi2.1.role = r)) := by
  intro heaps
  induction heaps with
  | nil => intro idx; simp [canonical_trace]
  | cons hi2 rest ih =>
    intro idx
    rw [canonical_trace, List.countP_append, List.countP_map, ih (idx + 1),
      List.countP_cons]
    by_cases hr : hi2.1.role = r
    · have hfun : ((fun e => decide (e.visitor_idx = i ∧ e.role = r)) ∘
          (fun j => (⟨j, idx, hi2.1.role⟩ : ReadEvent)))
          = fun j => decide (j = i) := by
        funext j
        simp [hr]
      rw [hfun, countP_range_eq, if_pos hi]
      simp [hr]
      omega
    · have hfun : ((fun e => decide (e.visitor_idx = i ∧ e.role = r)) ∘
          (fun j => (⟨j, idx, hi2.1.role⟩ : ReadEvent)))
          = fun _ => false := by
        funext j
        simp [hr]
      rw [hfun]
      simp [hr]

lemma canonical_countP_visitor (M i : Nat) (hi : i < M) :
    ∀ (heaps : List (SpeadHeap × Items)) (idx : Nat),
      (canonical_trace M idx heaps).countP
          (fun e => decide (e.visitor_idx = i))
        = heaps.length := by
  intro heaps
  induction heaps with
  | nil => intro idx; simp [canonical_trace]
  | cons hi2 rest ih =>
    intro idx
    rw [canonical_trace, List.countP_append, List.countP_map, ih (idx + 1)]
    have hfun : ((fun e => decide (e.visitor_idx = i)) ∘
        (fun j => (⟨j, idx, hi2.1.role⟩ : ReadEvent)))
        = fun j => decide (j = i) := by
      funext j
      simp
    rw [hfun, countP_range_eq, if_pos hi, List.length_cons]
    omega

lemma canonical_heap_idx_ge (M : Nat) :
    ∀ (heaps : List (SpeadHeap × Items)) (idx : Nat),
      ∀ e ∈ canonical_trace M idx heaps, idx ≤ e.heap_idx := by
  intro heaps
  induction heaps with
  | nil => intro idx e he; simp [canonical_trace] at he
  | cons hi2 rest ih =>
    intro idx e he
    rw [canonical_trace] at he
    rcases List.mem_append.mp he with he1 | he2
    · obtain ⟨j, _, hj⟩ := List.mem_map.mp he1
      rw [← hj]
    · have := ih (idx + 1) e he2
      omega

lemma canonical_countP_pair (M i : Nat) (hi : i < M) :
    ∀ (heaps : List (SpeadHeap × Items)) (idx j : Nat),
      idx ≤ j → j < idx + heaps.length →
      (canonical_trace M idx heaps).countP
          (fun e => decide (e.visitor_idx = i ∧ e.heap_idx = j)) = 1 := by
  intro heaps
  induction heaps with
  | nil =>
    intro idx j h1 h2
    simp at h2
    omega
  | cons hi2 rest ih =>
    intro idx j h1 h2
    rw [canonical_trace, List.countP_append, List.countP_map]
    by_cases hj : j = idx
    · subst hj
      have hfun : ((fun e => decide (e.visitor_idx = i ∧ e.heap_idx = j)) ∘
          (fun j2 => (⟨j2, j, hi2.1.role⟩ : ReadEvent)))
          = fun j2 => decide (j2 = i) := by
        funext j2
        simp
      rw [hfun, countP_range_eq, if_pos hi]
      have hrest : (canonical_trace M (j + 1) rest).countP
          (fun e => decide (e.visitor_idx = i ∧ e.heap_idx = j)) = 0 := by
        rw [List.countP_eq_zero]
        intro e he
        have := canonical_heap_idx_ge M rest (j + 1) e he
        simp
        omega
      omega
    · have hfun : ((fun e => decide (e.visitor_idx = i ∧ e.heap_idx = j)) ∘
          (fun j2 => (⟨j2, idx, hi2.1.role⟩ : ReadEvent)))
          = fun _ => false := by
        funext j2
        simp
        omega
      rw [hfun]
      have hz : (List.range M).countP (fun _ => false) = 0 := by simp
      have := ih (idx + 1) j (by omega)
        (by simp only [List.length_cons] at h2; omega)
      omega

/-! ## Concrete visitors and heap streams for witnesses -/

/-- A visitor that counts calls and never raises. -/
def counting_visitor : SpeadHeapVisitor Nat Nat :=
  ⟨fun s _ _ => Except.ok (s + 1),
   fun s _ _ => Except.ok (s + 1),
   fun s _ _ => Except.ok (s + 1)⟩

/-- A visitor whose data-heap callback raises the error 42. -/
def raising_visitor : SpeadHeapVisitor Nat Nat :=
  ⟨fun s _ _ => Except.ok (s + 1),
   fun _ _ _ => Except.error 42,
   fun s _ _ => Except.ok (s + 1)⟩

/-- A concrete capture of two heaps: one start-of-stream, one data. -/
def two_heaps : List (SpeadHeap × Items) :=
  [(⟨0, HeapRole.start_of_stream⟩, []), (⟨1, HeapRole.data_heap⟩, [])]

/-- A concrete capture of three heaps. -/
def three_heaps : List (SpeadHeap × Items) :=
  [(⟨0, HeapRole.start_of_stream⟩, []), (⟨1, HeapRole.data_heap⟩, []),
   (⟨2, HeapRole.end_of_stream⟩, [])]

lemma counting_visitor_total : visitor_total counting_visitor := by
  intro s h items
  refine ⟨s + 1, ?_⟩
  unfold visitor_call counting_visitor
  split
  · rfl
  · split
    · rfl
    · rfl

lemma counting_all_total : all_total [(counting_visitor, 0)] := by
  intro p hp
  rw [List.mem_singleton] at hp
  rw [hp]
  exact counting_visitor_total

/-! ## Claims C3, C4, C5, C7 -/

/-- Claim C3: on a full scan with no cancellation and no visitor error,
the dispatch trace is exactly the canonical schedule (for each heap in
file order, every visitor in registration order receives exactly that
heap's role callback before the next heap is processed); consequently
each visitor receives each role exactly as often as heaps of that role
occur, N calls in total per visitor, and exactly one call per visitor per
heap. -/
theorem visitor_dispatch_complete {σ ε : Type}
    (pairs : List (SpeadHeapVisitor σ ε × σ))
    (heaps : List (SpeadHeap × Items)) (htot : all_total pairs) :
    (read_pcap_file pairs (fun _ => false) heaps).trace
        = canonical_trace pairs.length 0 heaps ∧
    (∀ i r, i < pairs.length →
      (read_pcap_file pairs (fun _ => false) heaps).trace.countP
          (fun e => decide (e.visitor_idx = i ∧ e.role = r))
        = heaps.countP (fun hi => decide (hi.1.role = r))) ∧
    (∀ i, i < pairs.length →
      (read_pcap_file pairs (fun _ => false) heaps).trace.countP
          (fun e => decide (e.visitor_idx = i))
        = heaps.length) ∧
    (∀ i j, i < pairs.length → j < heaps.length →
      (read_pcap_file pairs (fun _ => false) heaps).trace.countP
          (fun e => decide (e.visitor_idx = i ∧ e.heap_idx = j)) = 1) := by
  have htr : (read_pcap_file pairs (fun _ => false) heaps).trace
      = canonical_trace pairs.length 0 heaps :=
    read_loop_trace_canonical (fun _ => false) (fun _ => rfl) heaps pairs 0 htot
  refine ⟨htr, ?_, ?_, ?_⟩
  · intro i r hi
    rw [htr]
    exact canonical_countP_role pairs.length i r hi heaps 0
  · intro i hi
    rw [htr]
    exact canonical_countP_visitor pairs.length i hi heaps 0
  · intro i j hi hj
    rw [htr]
    exact canonical_countP_pair pairs.length i hi heaps 0 j (Nat.zero_le j)
      (by omega)

/-- Witness for claim C3: one counting visitor over the two-heap
capture. -/
theorem visitor_dispatch_complete_witness :
    all_total [(counting_visitor, 0)] ∧
    (read_pcap_file [(counting_visitor, 0)] (fun _ => false) two_heaps).trace
      = canonical_trace 1 0 two_heaps :=
  ⟨counting_all_total,
    (visitor_dispatch_complete [(counting_visitor, 0)] two_heaps
      counting_all_total).1⟩

/-- Claim C4 counterexample: on a normally exhausted two-heap capture the
reader closes the stream but returns None; the heap count is not returned
to the caller. -/
theorem driver_return_claim_counterexample :
    (read_pcap_file [(counting_visitor, 0)] (fun _ => false)
        two_heaps).stream_stopped = true ∧
    two_heaps.length = 2 ∧
    (read_pcap_file [(counting_visitor, 0)] (fun _ => false)
        two_heaps).returned_value = none ∧
    (read_pcap_file [(counting_visitor, 0)] (fun _ => false)
        two_heaps).returned_value ≠ some 2 := by
  refine ⟨rfl, rfl, rfl, ?_⟩
  intro hcontra
  rw [show (read_pcap_file [(counting_visitor, 0)] (fun _ => false)
      two_heaps).returned_value = none from rfl] at hcontra
  cases hcontra

/-- Claim C4 (amended): on normal exhaustion the stream is closed and the
outcome is Completed, but the function returns None; the total heap count
is only logged, as heap_number + 1, which equals the heap count for a
nonempty capture and 1 for an empty one. -/
theorem driver_normal_exhaustion {σ ε : Type}
    (pairs : List (SpeadHeapVisitor σ ε × σ))
    (heaps : List (SpeadHeap × Items)) (htot : all_total pairs) :
    (read_pcap_file pairs (fun _ => false) heaps).outcome
        = ReadOutcome.completed ∧
    (read_pcap_file pairs (fun _ => false) heaps).stream_stopped = true ∧
    (read_pcap_file pairs (fun _ => false) heaps).returned_value = none ∧
    (read_pcap_file pairs (fun _ => false) heaps).logged_heap_count
        = some (if heaps.length = 0 then 1 else heaps.length) := by
  have := read_loop_completed (fun _ => false) (fun _ => rfl) heaps pairs 0 htot
  simpa using this

/-- Witness for claim C4's amended statement on the two-heap capture. -/
theorem driver_normal_exhaustion_witness :
    all_total [(counting_visitor, 0)] ∧
    ((read_pcap_file [(counting_visitor, 0)] (fun _ => false)
        two_heaps).outcome = ReadOutcome.completed ∧
      (read_pcap_file [(counting_visitor, 0)] (fun _ => false)
        two_heaps).stream_stopped = true ∧
      (read_pcap_file [(counting_visitor, 0)] (fun _ => false)
        two_heaps).returned_value = none ∧
      (read_pcap_file [(counting_visitor, 0)] (fun _ => false)
        two_heaps).logged_heap_count
        = some (if two_heaps.length = 0 then 1 else two_heaps.length)) :=
  ⟨counting_all_total,
    driver_normal_exhaustion [(counting_visitor, 0)] two_heaps
      counting_all_total⟩

/-- Claim C5 counterexample: a visitor that raises on the data heap of the
two-heap capture makes the reader propagate the error with the stream left
open; spead.py has no try/finally, so the stream is not closed on this
exit path. -/
theorem stream_cleanup_claim_counterexample :
    (read_pcap_file [(raising_visitor, 0)] (fun _ => false)
        two_heaps).outcome = ReadOutcome.failed 42 ∧
    (read_pcap_file [(raising_visitor, 0)] (fun _ => false)
        two_heaps).stream_stopped ≠ true := by
  refine ⟨rfl, ?_⟩
  intro hcontra
  rw [show (read_pcap_file [(raising_visitor, 0)] (fun _ => false)
      two_heaps).stream_stopped = false from rfl] at hcontra
  cases hcontra

/-- Claim C5 (amended): the stream is closed on normal exhaustion and on
cancellation; but when a visitor callback raises, the exception is
propagated to the caller unmodified with the stream left open (spead.py
has no try/finally around the loop). -/
theorem stream_cleanup (σ ε : Type)
    (pairs : List (SpeadHeapVisitor σ ε × σ)) (abort_set : Nat → Bool)
    (heaps : List (SpeadHeap × Items)) (e : ε) :
    ((∀ n, abort_set n = false) → all_total pairs →
      (read_pcap_file pairs abort_set heaps).stream_stopped = true) ∧
    (all_total pairs → (∃ t, t < heaps.length ∧ abort_set t = true) →
      (read_pcap_file pairs abort_set heaps).stream_stopped = true) ∧
    ((read_pcap_file pairs abort_set heaps).outcome = ReadOutcome.failed e →
      (read_pcap_file pairs abort_set heaps).stream_stopped = false) := by
  refine ⟨?_, ?_, ?_⟩
  · intro hnone htot
    exact (read_loop_completed abort_set hnone heaps pairs 0 htot).2.1
  · rintro htot ⟨t, htN, habt⟩
    exact (read_loop_aborted abort_set heaps pairs 0 t htot (Nat.zero_le t)
      (by omega) habt).2.1
  · intro hfail
    exact read_loop_failed_not_stopped abort_set heaps pairs 0 e hfail

/-- Witness for claim C5's amended statement: the completed path stops the
stream, the failing path leaves it open with the visitor's error 42
propagated. -/
theorem stream_cleanup_witness :
    (all_total [(counting_visitor, 0)] ∧
      (read_pcap_file [(raising_visitor, 0)] (fun _ => false)
        two_heaps).outcome = ReadOutcome.failed 42) ∧
    ((read_pcap_file [(counting_visitor, 0)] (fun _ => false)
        two_heaps).stream_stopped = true ∧
      (read_pcap_file [(raising_visitor, 0)] (fun _ => false)
        two_heaps).stream_stopped = false) :=
  ⟨⟨counting_all_total, rfl⟩,
    (stream_cleanup Nat Nat [(counting_visitor, 0)] (fun _ => false)
      two_heaps 0).1 (fun _ => rfl) counting_all_total,
    (stream_cleanup Nat Nat [(raising_visitor, 0)] (fun _ => false)
      two_heaps 42).2.2 rfl⟩

/-- Claim C7: every dispatched heap was observed with the cancellation
token unset (so once the token is set, no further heap is dispatched, in
particular not the heap at which it is observed); with a monotone token
set before the end of the capture and visitors that do not raise, the
reader aborts: iteration stops, the stream is closed, no value is
returned and no completion count is logged. -/
theorem cooperative_cancellation {σ ε : Type}
    (pairs : List (SpeadHeapVisitor σ ε × σ)) (abort_set : Nat → Bool)
    (heaps : List (SpeadHeap × Items)) (t : Nat)
    (hmono : ∀ a b, a ≤ b → abort_set a = true → abort_set b = true)
    (htot : all_total pairs) (habt : abort_set t = true)
    (htN : t < heaps.length) :
    (∀ e ∈ (read_pcap_file pairs abort_set heaps).trace,
      abort_set e.heap_idx = false ∧ e.heap_idx < t) ∧
    (read_pcap_file pairs abort_set heaps).outcome = ReadOutcome.aborted ∧
    (read_pcap_file pairs abort_set heaps).stream_stopped = true ∧
    (read_pcap_file pairs abort_set heaps).returned_value = none ∧
    (read_pcap_file pairs abort_set heaps).logged_heap_count = none := by
  have habort := read_loop_aborted abort_set heaps pairs 0 t htot
    (Nat.zero_le t) (by omega) habt
  refine ⟨?_, habort.1, habort.2.1, habort.2.2.1, habort.2.2.2⟩
  intro e he
  have h1 := read_loop_trace_abort abort_set heaps pairs 0 e he
  refine ⟨h1.1, ?_⟩
  by_contra hcontra
  have hge : t ≤ e.heap_idx := by omega
  have := hmono t e.heap_idx hge habt
  rw [h1.1] at this
  cases this

/-- Witness for claim C7: the token becomes set from heap index 1 onward
over the three-heap capture. -/
theorem cooperative_cancellation_witness :
    (all_total [(counting_visitor, 0)] ∧
      (fun n => decide (1 ≤ n)) 1 = true ∧ 1 < three_heaps.length) ∧
    ((∀ e ∈ (read_pcap_file [(counting_visitor, 0)]
          (fun n => decide (1 ≤ n)) three_heaps).trace,
        (fun n => decide (1 ≤ n)) e.heap_idx = false ∧ e.heap_idx < 1) ∧
      (read_pcap_file [(counting_visitor, 0)] (fun n => decide (1 ≤ n))
        three_heaps).outcome = ReadOutcome.aborted ∧
      (read_pcap_file [(counting_visitor, 0)] (fun n => decide (1 ≤ n))
        three_heaps).stream_stopped = true ∧
      (read_pcap_file [(counting_visitor, 0)] (fun n => decide (1 ≤ n))
        three_heaps).returned_value = none ∧
      (read_pcap_file [(counting_visitor, 0)] (fun n => decide (1 ≤ n))
        three_heaps).logged_heap_count = none) :=
  ⟨⟨counting_all_total, rfl, by decide⟩,
    cooperative_cancellation [(counting_visitor, 0)]
      (fun n => decide (1 ≤ n)) three_heaps 1
      (fun a b hab ha => decide_eq_true
        (Nat.le_trans (of_decide_eq_true ha) hab))
      counting_all_total rfl (by decide)⟩

end SkaSpead
